import Mathlib

/-
Verification of the POS backend (backend/server.py).

Shallow embedding conventions:
  * MongoDB collections are modelled as Lean lists in insertion order;
    `find_one` is `List.find?` (first match), `insert_one` appends.
  * Python floats (prices, totals) are modelled as exact rationals `Rat`.
  * Python `int` fields (quantities, times_sold) are modelled as `Int`.
  * ISO-8601 timestamps are kept as the strings the code stores; MongoDB's
    `$gte`/`$lte` on strings and Python's string comparison are both
    code-point-wise lexicographic, modelled by `strLe` below.
  * Python dicts (insertion-ordered, unique keys) are association lists;
    `d[k] = d.get(k, 0) + v` is `bump`.
  * Python's `sorted` is a stable sort; it is modelled by Mathlib's
    stable `List.insertionSort`.
-/

namespace POS

/-! ## String comparison (code-point lexicographic, as in Python / BSON) -/

/-- Strict code-point comparison of two characters, as Python compares them. -/
def charLt (a b : Char) : Bool := a.toNat < b.toNat

/-- Lexicographic (code-point) less-or-equal on char lists. -/
def charListLe : List Char → List Char → Bool
  | [], _ => true
  | _ :: _, [] => false
  | a :: as, b :: bs =>
    if charLt a b then true
    else if charLt b a then false
    else charListLe as bs

/-- Lexicographic less-or-equal on strings (Python `<=`, BSON `$lte`). -/
def strLe (a b : String) : Bool := charListLe a.data b.data

/-- Strict lexicographic order on strings. -/
def strLt (a b : String) : Bool := strLe a b && !(strLe b a)

/-! ## Data model (the pydantic models of server.py, as stored documents) -/

/-- Error surfaced by a handler: an HTTPException with status code and detail. -/
structure Err where
  status : Nat
  detail : String
deriving DecidableEq, Repr

/-- User document as stored in the `users` collection (public fields plus the
password hash added in `register`/`seed_data`). -/
structure StoredUser where
  id : String
  email : String
  name : String
  role : String
  created_at : String
  password : String
deriving DecidableEq, Repr

/-- Public `User` view returned by the API: the pydantic `User` model, which has
no password field at all. -/
structure UserView where
  id : String
  email : String
  name : String
  role : String
  created_at : String
deriving DecidableEq, Repr

/-- Projection of a stored user document onto the public `User` model; the
password hash is dropped because `User` has no such field. -/
def toView (u : StoredUser) : UserView :=
  { id := u.id, email := u.email, name := u.name, role := u.role,
    created_at := u.created_at }

/-- Request body of `register` (pydantic `UserCreate`); `role` defaults to
"cashier" in the source, here the field always carries the effective value. -/
structure UserCreate where
  email : String
  password : String
  name : String
  role : String
deriving DecidableEq, Repr

/-- Request body of `login` (pydantic `UserLogin`). -/
structure UserLogin where
  email : String
  password : String
deriving DecidableEq, Repr

/-- Product document of the `products` collection (pydantic `Product`). -/
structure Product where
  id : String
  name : String
  category : String
  cost : Rat
  sale_price : Rat
  employee_price : Rat
  image_url : String
  times_sold : Int
  created_at : String
deriving DecidableEq, Repr

/-- Partial-update request body (pydantic `ProductUpdate`): every field
optional, `none` meaning "not supplied". -/
structure ProductUpdate where
  name : Option String
  category : Option String
  cost : Option Rat
  sale_price : Option Rat
  employee_price : Option Rat
  image_url : Option String
deriving DecidableEq, Repr

/-- Line item of a sale (pydantic `SaleProduct`). -/
structure SaleProduct where
  product_id : String
  product_name : String
  quantity : Int
  unit_price : Rat
  subtotal : Rat
deriving DecidableEq, Repr

/-- Sale document of the `sales` collection (pydantic `Sale`); `date` is the
ISO-8601 string the handler stores. -/
structure Sale where
  id : String
  products : List SaleProduct
  total : Rat
  customer_type : String
  payment_method : String
  amount_paid : Rat
  change_amount : Rat
  cashier_id : String
  cashier_name : String
  date : String
deriving DecidableEq, Repr

/-- Request body of `create_sale` (pydantic `SaleCreate`). -/
structure SaleCreate where
  products : List SaleProduct
  total : Rat
  customer_type : String
  payment_method : String
  amount_paid : Rat
  change_amount : Rat
deriving DecidableEq, Repr

/-! ## Token issuer and auth gate

The JWT library (python-jose) is not part of the repository.  Modelled from
the spec: `issue(subject_id) -> token` produces a signed, tamper-evident token
embedding the subject id and an absolute expiry; `resolve` verifies signature
and expiry, and any signature mismatch, structural corruption, or expiry in
the past yields `Invalid`.  Signing is modelled symbolically: a signature is
the pair (key, payload), so a token verifies under `secret` exactly when its
signature was produced over its own payload with that `secret`. -/

/-- Claims carried by a token: the `sub` claim (absent if the payload lacks
it) and the `exp` claim as a Unix timestamp in seconds. -/
structure TokenPayload where
  sub : Option String
  exp : Int
deriving DecidableEq, Repr

/-- Modelled from the spec: an encoded JWT is either a structurally valid
(payload, signature) pair or a corrupt string that fails parsing. -/
inductive Jwt where
  | signed (payload : TokenPayload) (sig : String × TokenPayload)
  | malformed
deriving DecidableEq, Repr

/-- Modelled from the spec: symbolic HMAC signature over a payload. -/
def hmacSign (secret : String) (p : TokenPayload) : String × TokenPayload :=
  (secret, p)

/-- Token lifetime constant of server.py: minutes in 7 days. -/
def ACCESS_TOKEN_EXPIRE_MINUTES : Int := 60 * 24 * 7

/-- The `create_access_token` helper: payload `{sub, exp := now + 7 days}`
signed with the process secret; `now` is the issuing time in Unix seconds. -/
def create_access_token (secret : String) (subject : String) (now : Int) : Jwt :=
  let payload : TokenPayload :=
    { sub := some subject, exp := now + 60 * ACCESS_TOKEN_EXPIRE_MINUTES }
  Jwt.signed payload (hmacSign secret payload)

/-- Modelled from the spec: `jwt.decode` verifies the signature and the `exp`
claim against the current time (python-jose raises `ExpiredSignatureError`,
a `JWTError`, when `exp` is in the past); any failure yields `none`. -/
def jwt_decode (secret : String) (t : Jwt) (now : Int) : Option TokenPayload :=
  match t with
  | Jwt.malformed => none
  | Jwt.signed p sig =>
    if sig = hmacSign secret p then
      if p.exp < now then none else some p
    else none

/-- The 401 error raised by `get_current_user` for every auth failure. -/
def credentials_exception : Err :=
  { status := 401, detail := "Could not validate credentials" }

/-- The `get_current_user` dependency: decode the token, read the `sub`
claim, look the user up by id; every failure mode raises the same 401. -/
def get_current_user (secret : String) (users : List StoredUser) (t : Jwt)
    (now : Int) : Except Err StoredUser :=
  match jwt_decode secret t now with
  | none => Except.error credentials_exception
  | some p =>
    match p.sub with
    | none => Except.error credentials_exception
    | some uid =>
      match users.find? (fun u => u.id = uid) with
      | none => Except.error credentials_exception
      | some u => Except.ok u

/-! ## Registration and login -/

/-- The conflict error of `register` for an already-registered email. -/
def email_registered_error : Err :=
  { status := 400, detail := "Email already registered" }

/-- The `register` handler.  `hashFn` stands for the external bcrypt
`get_password_hash`, `freshId` for the generated uuid4, `now` for the
creation timestamp.  Returns the response and the resulting user store. -/
def register (hashFn : String → String) (freshId : String) (now : String)
    (users : List StoredUser) (data : UserCreate) :
    Except Err UserView × List StoredUser :=
  match users.find? (fun u => u.email = data.email) with
  | some _ => (Except.error email_registered_error, users)
  | none =>
    let doc : StoredUser :=
      { id := freshId, email := data.email, name := data.name,
        role := data.role, created_at := now, password := hashFn data.password }
    (Except.ok (toView doc), users ++ [doc])

/-- The single 401 error of `login`, raised both for an unknown email and for
a failed password verification. -/
def incorrect_credentials_error : Err :=
  { status := 401, detail := "Incorrect email or password" }

/-- The `login` handler.  `verify` stands for the external bcrypt
`verify_password`; on success a token is issued for the user's id. -/
def login (verify : String → String → Bool) (secret : String) (now : Int)
    (users : List StoredUser) (creds : UserLogin) :
    Except Err (Jwt × UserView) :=
  match users.find? (fun u => u.email = creds.email) with
  | none => Except.error incorrect_credentials_error
  | some u =>
    if verify creds.password u.password then
      Except.ok (create_access_token secret u.id now, toView u)
    else Except.error incorrect_credentials_error

/-! ## Product handlers -/

/-- Whether the head of the haystack starts with the needle. -/
def startsWithChars : List Char → List Char → Bool
  | _, [] => true
  | [], _ :: _ => false
  | h :: hs, n :: ns => h == n && startsWithChars hs ns

/-- Substring containment on char lists. -/
def containsSub : List Char → List Char → Bool
  | [], needle => needle.isEmpty
  | h :: t, needle => startsWithChars (h :: t) needle || containsSub t needle

/-- Category clause of the `get_products` query; Python's `if category:`
skips the clause for an absent or empty string. -/
def categoryClause (category : Option String) (p : Product) : Bool :=
  match category with
  | none => true
  | some c => if c.isEmpty then true else p.category = c

/-- Name-search clause of `get_products`: a `$regex` with `$options: "i"`,
which for a plain search term is case-insensitive substring matching on the
name; skipped for an absent or empty search string. -/
def searchClause (search : Option String) (p : Product) : Bool :=
  match search with
  | none => true
  | some s =>
    if s.isEmpty then true
    else containsSub p.name.toLower.data s.toLower.data

/-- The `get_products` handler: filter by the query and read at most 1000
documents (`to_list(1000)`). -/
def get_products (products : List Product) (category search : Option String) :
    List Product :=
  (products.filter (fun p => categoryClause category p && searchClause search p)).take 1000

/-- Field-by-field effect of `$set` with the non-null fields of a
`ProductUpdate` on one product document. -/
def applyUpdate (u : ProductUpdate) (p : Product) : Product :=
  { p with
    name := u.name.getD p.name,
    category := u.category.getD p.category,
    cost := u.cost.getD p.cost,
    sale_price := u.sale_price.getD p.sale_price,
    employee_price := u.employee_price.getD p.employee_price,
    image_url := u.image_url.getD p.image_url }

/-- Effect of `update_one({"id": pid}, {"$set": ...})`: update the first
document matching the id, leave the rest untouched. -/
def updateFirst : List Product → String → ProductUpdate → List Product
  | [], _, _ => []
  | p :: ps, pid, u =>
    if p.id = pid then applyUpdate u p :: ps
    else p :: updateFirst ps pid u

/-- The 404 error for a missing product id. -/
def product_not_found_error : Err := { status := 404, detail := "Product not found" }

/-- The `update_product` handler: 404 if the id is absent, otherwise apply
the partial update and return the re-fetched document.  The final `none`
branch is unreachable (the update preserves ids); in Python it would crash,
modelled as a 500-class fault. -/
def update_product (products : List Product) (pid : String) (u : ProductUpdate) :
    Except Err Product × List Product :=
  match products.find? (fun p => p.id = pid) with
  | none => (Except.error product_not_found_error, products)
  | some _ =>
    let products2 := updateFirst products pid u
    match products2.find? (fun p => p.id = pid) with
    | some q => (Except.ok q, products2)
    | none => (Except.error { status := 500, detail := "Internal Server Error" }, products2)

/-! ## Sale creation -/

/-- One persistence operation issued by `create_sale`, in program order. -/
inductive StoreOp where
  | insertSale (s : Sale)
  | incTimesSold (pid : String) (q : Int)
deriving DecidableEq, Repr

/-- The `create_sale` handler: build the sale stamped with the caller's
identity, then issue the insert followed by one `$inc` per line item, in
line-item order.  `freshId` stands for the generated uuid4 and `now` for the
stamped ISO date.  Returns the response value and the operation trace. -/
def create_sale (user : StoredUser) (data : SaleCreate) (freshId : String)
    (now : String) : Sale × List StoreOp :=
  let sale : Sale :=
    { id := freshId, products := data.products, total := data.total,
      customer_type := data.customer_type, payment_method := data.payment_method,
      amount_paid := data.amount_paid, change_amount := data.change_amount,
      cashier_id := user.id, cashier_name := user.name, date := now }
  (sale,
    StoreOp.insertSale sale ::
      data.products.map (fun it => StoreOp.incTimesSold it.product_id it.quantity))

/-- Effect of `update_one({"id": pid}, {"$inc": {"times_sold": q}})`:
increment the counter of the first document matching the id. -/
def incFirst : List Product → String → Int → List Product
  | [], _, _ => []
  | p :: ps, pid, q =>
    if p.id = pid then { p with times_sold := p.times_sold + q } :: ps
    else p :: incFirst ps pid q

/-- Interpretation of one persistence operation on the store state
(products, sales). -/
def applyOp (st : List Product × List Sale) : StoreOp → List Product × List Sale
  | StoreOp.insertSale s => (st.1, st.2 ++ [s])
  | StoreOp.incTimesSold pid q => (incFirst st.1 pid q, st.2)

/-- Run a trace of persistence operations in order. -/
def apply_ops (st : List Product × List Sale) (ops : List StoreOp) :
    List Product × List Sale :=
  ops.foldl applyOp st

/-- Total quantity a list of line items sells of product `pid`. -/
def qtyFor : List SaleProduct → String → Int
  | [], _ => 0
  | it :: rest, pid =>
    (if it.product_id = pid then it.quantity else 0) + qtyFor rest pid

/-! ## Sales listing and the reporting engine -/

/-- Date-range clause of `get_sales`/`get_report_summary`: `$gte start` and
`$lte end` on the ISO date string, each bound optional; Python's
`if start_date:` also skips an empty string. -/
def inRange (start_date end_date : Option String) (s : Sale) : Bool :=
  (match start_date with
   | none => true
   | some a => if a.isEmpty then true else strLe a s.date) &&
  (match end_date with
   | none => true
   | some b => if b.isEmpty then true else strLe s.date b)

/-- Relation ordering sales by date descending (`sort("date", -1)`). -/
def dateDescRel (a b : Sale) : Prop := strLe b.date a.date = true

instance : DecidableRel dateDescRel := fun x y => instDecidableEqBool (strLe y.date x.date) true

/-- The `get_sales` handler: filter by the date range, sort newest first and
read at most 1000 documents (`to_list(1000)`). -/
def get_sales (sales : List Sale) (start_date end_date : Option String) :
    List Sale :=
  (List.insertionSort dateDescRel (sales.filter (inRange start_date end_date))).take 1000

/-- Per-product aggregate row built by the report loop (`product_sales[pid]`). -/
structure ProdAgg where
  product_id : String
  product_name : String
  quantity : Int
  revenue : Rat
deriving DecidableEq, Repr

/-- The value of the `ReportSummary` response model.  Python dicts appear as
insertion-ordered association lists. -/
structure ReportSummary where
  total_sales : Rat
  total_transactions : Nat
  top_products : List ProdAgg
  sales_by_category : List (String × Rat)
  daily_sales : List (String × Rat)
deriving DecidableEq, Repr

/-- Python dict accumulation `d[k] = d.get(k, 0) + v` on an insertion-ordered
association list: update the entry in place, or append a fresh one. -/
def bump : List (String × Rat) → String → Rat → List (String × Rat)
  | [], k, v => [(k, v)]
  | e :: rest, k, v =>
    if e.1 = k then (e.1, e.2 + v) :: rest
    else e :: bump rest k v

/-- One step of the line-item loop on `product_sales`: a first-seen product id
gets a fresh row carrying the name snapshot of that line item; an existing row
accumulates quantity and revenue, keeping its first-seen name. -/
def addItem : List ProdAgg → SaleProduct → List ProdAgg
  | [], it =>
    [{ product_id := it.product_id, product_name := it.product_name,
       quantity := it.quantity, revenue := it.subtotal }]
  | a :: rest, it =>
    if a.product_id = it.product_id then
      { a with quantity := a.quantity + it.quantity,
               revenue := a.revenue + it.subtotal } :: rest
    else a :: addItem rest it

/-- The `product_sales` accumulator over all line items of all sales in range,
in iteration order. -/
def product_sales (sales : List Sale) : List ProdAgg :=
  sales.foldl (fun acc s => s.products.foldl addItem acc) []

/-- Day key of a sale: `strftime("%Y-%m-%d")` of the parsed ISO timestamp,
i.e. its first ten characters. -/
def dayKey (date : String) : String := String.mk (date.data.take 10)

/-- The `daily_totals` accumulator: per-day sum of the sales' `total` fields. -/
def daily_totals (sales : List Sale) : List (String × Rat) :=
  sales.foldl (fun acc s => bump acc (dayKey s.date) s.total) []

/-- Current category of a product id in the catalog, if it still exists. -/
def catOf (catalog : List Product) (pid : String) : Option String :=
  (catalog.find? (fun p => p.id = pid)).map (fun p => p.category)

/-- The `category_sales` loop: for every aggregate row, look the product up
live in the catalog; if found, add the row's revenue under the product's
current category; a missing product contributes nothing. -/
def category_sales (catalog : List Product) (aggs : List ProdAgg) :
    List (String × Rat) :=
  aggs.foldl
    (fun acc a =>
      match catalog.find? (fun p => p.id = a.product_id) with
      | some p => bump acc p.category a.revenue
      | none => acc)
    []

/-- Sum of the `total` fields of the sales in range (`sum(s["total"] ...)`). -/
def sumTotals : List Sale → Rat
  | [] => 0
  | s :: rest => s.total + sumTotals rest

/-- Sum of the revenues of a list of aggregate rows. -/
def sumRev : List ProdAgg → Rat
  | [] => 0
  | a :: rest => a.revenue + sumRev rest

/-- Sum of the subtotals of a list of line items. -/
def sumSub : List SaleProduct → Rat
  | [] => 0
  | it :: rest => it.subtotal + sumSub rest

/-- Ordering of aggregate rows by quantity descending, the key of
`sorted(..., key=lambda x: x["quantity"], reverse=True)`. -/
def topRel (a b : ProdAgg) : Prop := b.quantity ≤ a.quantity

instance : DecidableRel topRel := fun x y => Int.decLe y.quantity x.quantity

instance : IsTotal ProdAgg topRel :=
  ⟨fun a b => (Int.le_total b.quantity a.quantity).elim Or.inl Or.inr⟩

instance : IsTrans ProdAgg topRel :=
  ⟨fun _ _ _ hab hbc => le_trans hbc hab⟩

/-- Ordering of `daily_totals.items()` by day key ascending, the order of
`sorted(daily_totals.items())` (keys are distinct, so the key decides). -/
def dayRel (a b : String × Rat) : Prop := strLe a.1 b.1 = true

instance : DecidableRel dayRel := fun x y => instDecidableEqBool (strLe x.1 y.1) true

/-! ## Lemmas about the lexicographic string order -/

theorem charListLe_refl (l : List Char) : charListLe l l = true := by
  induction l with
  | nil => rfl
  | cons a as ih => simp [charListLe, charLt, ih]

theorem charListLe_total (a b : List Char) :
    charListLe a b = true ∨ charListLe b a = true := by
  induction a generalizing b with
  | nil => left; rfl
  | cons x xs ih =>
    cases b with
    | nil => right; rfl
    | cons y ys =>
      by_cases hxy : charLt x y
      · left; simp [charListLe, hxy]
      · by_cases hyx : charLt y x
        · right; simp [charListLe, hyx]
        · rcases ih ys with h | h
          · left; simp [charListLe, hxy, hyx, h]
          · right; simp [charListLe, hxy, hyx, h]

theorem charListLe_trans {a b c : List Char}
    (hab : charListLe a b = true) (hbc : charListLe b c = true) :
    charListLe a c = true := by
  induction a generalizing b c with
  | nil => rfl
  | cons x xs ih =>
    cases b with
    | nil => simp [charListLe] at hab
    | cons y ys =>
      cases c with
      | nil => simp [charListLe] at hbc
      | cons z zs =>
        simp only [charListLe, charLt] at hab hbc ⊢
        by_cases hxz : x.toNat < z.toNat
        · simp [hxz]
        · by_cases hxy : x.toNat < y.toNat <;> by_cases hyz : y.toNat < z.toNat
          · omega
          · simp [hxy] at hab
            simp [hyz] at hbc
            rcases hbc with ⟨hzy, _⟩
            omega
          · simp [hxy] at hab
            rcases hab with ⟨hyx, _⟩
            omega
          · simp [hxy] at hab
            simp [hyz] at hbc
            rcases hab with ⟨hyx, hab⟩
            rcases hbc with ⟨hzy, hbc⟩
            have hzx : ¬ z.toNat < x.toNat := by omega
            simp [hxz, hzx]
            exact ih hab hbc

theorem strLe_refl (a : String) : strLe a a = true := charListLe_refl _

theorem strLe_total (a b : String) : strLe a b = true ∨ strLe b a = true :=
  charListLe_total _ _

theorem strLe_trans {a b c : String}
    (hab : strLe a b = true) (hbc : strLe b c = true) : strLe a c = true :=
  charListLe_trans hab hbc

theorem strLt_le {a b : String} (h : strLt a b = true) : strLe a b = true := by
  simp [strLt] at h; exact h.1

theorem strLt_ne {a b : String} (h : strLt a b = true) : a ≠ b := by
  intro rfl_eq
  subst rfl_eq
  simp [strLt, strLe_refl] at h


instance : IsTotal (String × Rat) dayRel :=
  ⟨fun a b => strLe_total a.1 b.1⟩

instance : IsTrans (String × Rat) dayRel :=
  ⟨fun _ _ _ hab hbc => strLe_trans hab hbc⟩

/-- The in-range slice the report reads: the date filter followed by the
`to_list(10000)` cap. -/
def inRangeSales (ledger : List Sale) (start_date end_date : Option String) :
    List Sale :=
  (ledger.filter (inRange start_date end_date)).take 10000

/-- The `get_report_summary` aggregation over an explicit date range (the
period-to-range defaulting that computes a missing `start_date` from `period`
happens before the query is built and is not needed here).  Python's stable
`sorted` is modelled by the stable `List.insertionSort`. -/
def get_report_summary (catalog : List Product) (ledger : List Sale)
    (start_date end_date : Option String) : ReportSummary :=
  let sales := inRangeSales ledger start_date end_date
  let aggs := product_sales sales
  { total_sales := sumTotals sales
  , total_transactions := sales.length
  , top_products := (List.insertionSort topRel aggs).take 10
  , sales_by_category := category_sales catalog aggs
  , daily_sales := List.insertionSort dayRel (daily_totals sales) }

/-! ## Seeding -/

/-- One entry of the fixed demo-catalog lists in `seed_data`. -/
structure SeedItem where
  name : String
  cost : Rat
  sale_price : Rat
  employee_price : Rat
  image_url : String
deriving DecidableEq, Repr

/-- Seed catalog data list `cold_drinks` of `seed_data`. -/
def cold_drinks : List SeedItem :=
  [{ name := "Iced Coffee", cost := 1.5, sale_price := 3.5, employee_price := 2.5, image_url := "https://images.unsplash.com/photo-1686575669781-74e03080541b?w=400" },
   { name := "Iced Latte", cost := 1.8, sale_price := 4.0, employee_price := 3.0, image_url := "https://images.unsplash.com/photo-1517487881594-2787fef5ebf7?w=400" },
   { name := "Cold Brew", cost := 1.6, sale_price := 3.75, employee_price := 2.75, image_url := "https://images.unsplash.com/photo-1461023058943-07fcbe16d735?w=400" },
   { name := "Iced Mocha", cost := 2.0, sale_price := 4.5, employee_price := 3.25, image_url := "https://images.unsplash.com/photo-1542843137-8791a6904d14?w=400" },
   { name := "Iced Caramel Macchiato", cost := 2.2, sale_price := 4.75, employee_price := 3.5, image_url := "https://images.unsplash.com/photo-1599578675144-ba7ef5e19186?w=400" },
   { name := "Iced Vanilla Latte", cost := 1.9, sale_price := 4.25, employee_price := 3.0, image_url := "https://images.unsplash.com/photo-1602882480284-ad6a30ba4f07?w=400" },
   { name := "Strawberry Smoothie", cost := 2.5, sale_price := 5.5, employee_price := 4.0, image_url := "https://images.unsplash.com/photo-1622597468620-656aa1f981ea?w=400" },
   { name := "Mango Smoothie", cost := 2.5, sale_price := 5.5, employee_price := 4.0, image_url := "https://images.unsplash.com/photo-1600271886742-f049cd451bba?w=400" },
   { name := "Berry Blast Smoothie", cost := 2.7, sale_price := 5.75, employee_price := 4.25, image_url := "https://images.unsplash.com/photo-1505252585461-04db1eb84625?w=400" },
   { name := "Green Detox Smoothie", cost := 2.8, sale_price := 6.0, employee_price := 4.5, image_url := "https://images.unsplash.com/photo-1610970881699-44a5587cabec?w=400" },
   { name := "Lemonade", cost := 1.0, sale_price := 2.5, employee_price := 1.75, image_url := "https://images.unsplash.com/photo-1523677011781-c91d1bbe4d1e?w=400" },
   { name := "Orange Juice", cost := 1.2, sale_price := 3.0, employee_price := 2.0, image_url := "https://images.unsplash.com/photo-1600271886742-f049cd451bba?w=400" },
   { name := "Apple Juice", cost := 1.2, sale_price := 3.0, employee_price := 2.0, image_url := "https://images.unsplash.com/photo-1609501676725-7186f017a4b7?w=400" },
   { name := "Iced Tea", cost := 0.8, sale_price := 2.25, employee_price := 1.5, image_url := "https://images.unsplash.com/photo-1556679343-c7306c1976bc?w=400" },
   { name := "Peach Iced Tea", cost := 1.0, sale_price := 2.75, employee_price := 2.0, image_url := "https://images.unsplash.com/photo-1499638309848-e9968540da83?w=400" },
   { name := "Mint Lemonade", cost := 1.3, sale_price := 3.25, employee_price := 2.25, image_url := "https://images.unsplash.com/photo-1571091718767-18b5b1457add?w=400" },
   { name := "Coconut Water", cost := 1.5, sale_price := 3.5, employee_price := 2.5, image_url := "https://images.unsplash.com/photo-1605367587000-15a5d37715e4?w=400" },
   { name := "Watermelon Juice", cost := 1.4, sale_price := 3.25, employee_price := 2.25, image_url := "https://images.unsplash.com/photo-1587049633312-d628ae50a8ae?w=400" },
   { name := "Pineapple Juice", cost := 1.3, sale_price := 3.0, employee_price := 2.0, image_url := "https://images.unsplash.com/photo-1565299543923-37dd37887442?w=400" },
   { name := "Frappuccino", cost := 2.4, sale_price := 5.25, employee_price := 3.75, image_url := "https://images.unsplash.com/photo-1572490122747-3968b75cc699?w=400" },
   { name := "Chocolate Shake", cost := 2.3, sale_price := 5.0, employee_price := 3.5, image_url := "https://images.unsplash.com/photo-1542574271-7f3b92e6c821?w=400" },
   { name := "Vanilla Shake", cost := 2.2, sale_price := 4.75, employee_price := 3.25, image_url := "https://images.unsplash.com/photo-1579954115545-a95591f28bfc?w=400" },
   { name := "Strawberry Shake", cost := 2.3, sale_price := 5.0, employee_price := 3.5, image_url := "https://images.unsplash.com/photo-1623428454614-abaf00244e52?w=400" },
   { name := "Oreo Shake", cost := 2.5, sale_price := 5.5, employee_price := 4.0, image_url := "https://images.unsplash.com/photo-1581006852262-e4307cf6283a?w=400" },
   { name := "Bubble Tea", cost := 2.0, sale_price := 4.5, employee_price := 3.25, image_url := "https://images.unsplash.com/photo-1525385133512-2f3bdd039054?w=400" }]

/-- Seed catalog data list `hot_drinks` of `seed_data`. -/
def hot_drinks : List SeedItem :=
  [{ name := "Hot Coffee", cost := 1.0, sale_price := 2.5, employee_price := 1.75, image_url := "https://images.unsplash.com/photo-1509042239860-f550ce710b93?w=400" },
   { name := "Espresso", cost := 0.8, sale_price := 2.0, employee_price := 1.5, image_url := "https://images.unsplash.com/photo-1510591509098-f4fdc6d0ff04?w=400" },
   { name := "Cappuccino", cost := 1.4, sale_price := 3.5, employee_price := 2.5, image_url := "https://images.unsplash.com/photo-1572442388796-11668a67e53d?w=400" },
   { name := "Latte", cost := 1.5, sale_price := 3.75, employee_price := 2.75, image_url := "https://images.unsplash.com/photo-1691723247105-57e32577dc72?w=400" },
   { name := "Americano", cost := 1.2, sale_price := 3.0, employee_price := 2.0, image_url := "https://images.unsplash.com/photo-1514432324607-a09d9b4aefdd?w=400" },
   { name := "Mocha", cost := 1.8, sale_price := 4.25, employee_price := 3.0, image_url := "https://images.unsplash.com/photo-1578374173704-966697ae5e8c?w=400" },
   { name := "Macchiato", cost := 1.6, sale_price := 3.75, employee_price := 2.75, image_url := "https://images.unsplash.com/photo-1557006021-b85faa2bc5e2?w=400" },
   { name := "Hot Chocolate", cost := 1.5, sale_price := 3.5, employee_price := 2.5, image_url := "https://images.unsplash.com/photo-1542990253-0d0f5be5f0ed?w=400" },
   { name := "Chai Latte", cost := 1.6, sale_price := 3.75, employee_price := 2.75, image_url := "https://images.unsplash.com/photo-1578374173704-966697ae5e8c?w=400" },
   { name := "Matcha Latte", cost := 2.0, sale_price := 4.5, employee_price := 3.25, image_url := "https://images.unsplash.com/photo-1536013080062-84d3e4fcf21f?w=400" },
   { name := "Green Tea", cost := 0.6, sale_price := 2.0, employee_price := 1.5, image_url := "https://images.unsplash.com/photo-1564890369478-c89ca6d9cde9?w=400" },
   { name := "Peppermint Tea", cost := 0.7, sale_price := 2.25, employee_price := 1.75, image_url := "https://images.unsplash.com/photo-1597318110274-1f1335e0a83d?w=400" }]

/-- Seed catalog data list `snacks` of `seed_data`. -/
def snacks : List SeedItem :=
  [{ name := "Croissant", cost := 1.2, sale_price := 3.0, employee_price := 2.0, image_url := "https://images.unsplash.com/photo-1709798289100-7b46217e0325?w=400" },
   { name := "Chocolate Croissant", cost := 1.4, sale_price := 3.5, employee_price := 2.5, image_url := "https://images.unsplash.com/photo-1632636575859-45d1950fdc78?w=400" },
   { name := "Blueberry Muffin", cost := 1.0, sale_price := 2.75, employee_price := 2.0, image_url := "https://images.unsplash.com/photo-1607958996333-41aef7caefaa?w=400" },
   { name := "Chocolate Chip Muffin", cost := 1.0, sale_price := 2.75, employee_price := 2.0, image_url := "https://images.pexels.com/photos/3650437/pexels-photo-3650437.jpeg?w=400" },
   { name := "Cinnamon Roll", cost := 1.3, sale_price := 3.5, employee_price := 2.5, image_url := "https://images.unsplash.com/photo-1509365465985-25d11c17e812?w=400" },
   { name := "Bagel", cost := 0.8, sale_price := 2.5, employee_price := 1.75, image_url := "https://images.unsplash.com/photo-1549931319-a545dcf3bc3c?w=400" },
   { name := "Sandwich", cost := 2.5, sale_price := 6.0, employee_price := 4.5, image_url := "https://images.unsplash.com/photo-1528735602780-2552fd46c7af?w=400" },
   { name := "Cookies", cost := 0.6, sale_price := 1.75, employee_price := 1.25, image_url := "https://images.unsplash.com/photo-1499636136210-6f4ee915583e?w=400" },
   { name := "Brownie", cost := 1.2, sale_price := 3.0, employee_price := 2.0, image_url := "https://images.unsplash.com/photo-1607920591413-4ec007e70023?w=400" },
   { name := "Cheesecake", cost := 2.0, sale_price := 5.0, employee_price := 3.5, image_url := "https://images.unsplash.com/photo-1524351199678-941a58a3df50?w=400" },
   { name := "Donut", cost := 0.8, sale_price := 2.0, employee_price := 1.5, image_url := "https://images.unsplash.com/photo-1551024506-0bccd828d307?w=400" }]

/-- Seed catalog data list `extras` of `seed_data`. -/
def extras : List SeedItem :=
  [{ name := "Leche Extra", cost := 0.3, sale_price := 0.75, employee_price := 0.5, image_url := "https://images.unsplash.com/photo-1550583724-b2692b85b150?w=400" },
   { name := "Shot Espresso", cost := 0.5, sale_price := 1.0, employee_price := 0.75, image_url := "https://images.unsplash.com/photo-1514432324607-a09d9b4aefdd?w=400" },
   { name := "Crema Batida", cost := 0.4, sale_price := 1.0, employee_price := 0.75, image_url := "https://images.unsplash.com/photo-1625772452859-1c03d5bf1137?w=400" },
   { name := "Jarabe Vainilla", cost := 0.3, sale_price := 0.75, employee_price := 0.5, image_url := "https://images.unsplash.com/photo-1481391032119-d89fee407e44?w=400" },
   { name := "Jarabe Caramelo", cost := 0.3, sale_price := 0.75, employee_price := 0.5, image_url := "https://images.unsplash.com/photo-1481391032119-d89fee407e44?w=400" },
   { name := "Jarabe Avellana", cost := 0.3, sale_price := 0.75, employee_price := 0.5, image_url := "https://images.unsplash.com/photo-1481391032119-d89fee407e44?w=400" },
   { name := "Chocolate Extra", cost := 0.4, sale_price := 1.0, employee_price := 0.75, image_url := "https://images.unsplash.com/photo-1511381939415-e44015466834?w=400" },
   { name := "Leche de Almendra", cost := 0.5, sale_price := 1.25, employee_price := 1.0, image_url := "https://images.unsplash.com/photo-1550583724-b2692b85b150?w=400" },
   { name := "Leche de Avena", cost := 0.5, sale_price := 1.25, employee_price := 1.0, image_url := "https://images.unsplash.com/photo-1600788907416-456578634209?w=400" },
   { name := "Topping Oreo", cost := 0.5, sale_price := 1.25, employee_price := 1.0, image_url := "https://images.unsplash.com/photo-1606313564200-e75d5e30476c?w=400" }]
/-- Product document built by `seed_data` from one catalog entry. -/
def mkSeedProduct (category : String) (freshId : String) (now : String)
    (d : SeedItem) : Product :=
  { id := freshId, name := d.name, category := category, cost := d.cost,
    sale_price := d.sale_price, employee_price := d.employee_price,
    image_url := d.image_url, times_sold := 0, created_at := now }

/-- All product documents `seed_data` inserts, in insertion order; `freshId`
enumerates the generated uuid4 values and `now` the creation timestamp. -/
def seedProducts (freshId : Nat → String) (now : String) : List Product :=
  (cold_drinks.enum.map (fun e => mkSeedProduct "cold_drinks" (freshId e.1) now e.2)) ++
  (hot_drinks.enum.map (fun e => mkSeedProduct "hot_drinks" (freshId (25 + e.1)) now e.2)) ++
  (snacks.enum.map (fun e => mkSeedProduct "snacks" (freshId (37 + e.1)) now e.2)) ++
  (extras.enum.map (fun e => mkSeedProduct "extras" (freshId (48 + e.1)) now e.2))

/-- The `seed_data` handler on a store state (products, users): a no-op
reporting "Database already seeded" when the products collection is
non-empty; otherwise it inserts the demo catalog and then the demo admin and
cashier users.  The guard looks only at `count_documents` on products; the
users collection is not consulted. -/
def seed_data (hashFn : String → String) (freshId : Nat → String) (now : String)
    (st : List Product × List StoredUser) :
    String × (List Product × List StoredUser) :=
  if st.1.length > 0 then ("Database already seeded", st)
  else
    ("Database seeded successfully",
      (st.1 ++ seedProducts freshId now,
       st.2 ++
         [{ id := freshId 58, email := "admin@pos.com", name := "Admin User",
            role := "admin", created_at := now, password := hashFn "admin123" },
          { id := freshId 59, email := "cashier@pos.com", name := "Cashier User",
            role := "cashier", created_at := now, password := hashFn "cashier123" }]))

/-! ## Derived observations used by the claims -/

/-- Dict lookup with default 0, the reading of a value out of an
insertion-ordered association list. -/
def lookupD : List (String × Rat) → String → Rat
  | [], _ => 0
  | e :: rest, k => if e.1 = k then e.2 else lookupD rest k

/-- Sum of the line-item subtotals of every sale in the list. -/
def sumSubAll : List Sale → Rat
  | [] => 0
  | s :: rest => sumSub s.products + sumSubAll rest

/-- Whether an aggregate row's product currently resolves to category `c`. -/
def catMatch (catalog : List Product) (c : String) (a : ProdAgg) : Bool :=
  decide (catOf catalog a.product_id = some c)

/-! ## Aggregation lemmas -/

theorem sumRev_addItem (acc : List ProdAgg) (it : SaleProduct) :
    sumRev (addItem acc it) = sumRev acc + it.subtotal := by
  induction acc with
  | nil => simp [addItem, sumRev]
  | cons a rest ih =>
    by_cases h : a.product_id = it.product_id
    · simp only [addItem, if_pos h, sumRev]
      ring
    · simp only [addItem, if_neg h, sumRev, ih]
      ring

theorem sumRev_foldl_addItem (items : List SaleProduct) :
    ∀ acc, sumRev (items.foldl addItem acc) = sumRev acc + sumSub items := by
  induction items with
  | nil => intro acc; simp [sumSub]
  | cons it rest ih =>
    intro acc
    simp only [List.foldl_cons, sumSub]
    rw [ih, sumRev_addItem]
    ring

theorem sumRev_product_sales_aux (sales : List Sale) :
    ∀ acc, sumRev (sales.foldl (fun acc s => s.products.foldl addItem acc) acc)
      = sumRev acc + sumSubAll sales := by
  induction sales with
  | nil => intro acc; simp [sumSubAll]
  | cons s rest ih =>
    intro acc
    simp only [List.foldl_cons, sumSubAll]
    rw [ih, sumRev_foldl_addItem]
    ring

/-- Revenue conservation: the per-product revenue aggregates sum to the total
of all line-item subtotals in range. -/
theorem sumRev_product_sales (sales : List Sale) :
    sumRev (product_sales sales) = sumSubAll sales := by
  have h := sumRev_product_sales_aux sales []
  simpa [product_sales, sumRev] using h

theorem addItem_pid_prop {Q : String → Prop} {acc : List ProdAgg} {it : SaleProduct}
    (hit : Q it.product_id) (hacc : ∀ a ∈ acc, Q a.product_id) :
    ∀ a ∈ addItem acc it, Q a.product_id := by
  induction acc with
  | nil =>
    intro a ha
    simp [addItem] at ha
    rw [ha]
    exact hit
  | cons b rest ih =>
    intro a ha
    by_cases h : b.product_id = it.product_id
    · simp only [addItem, if_pos h] at ha
      rcases List.mem_cons.mp ha with h1 | h1
      · rw [h1]
        exact hacc b (List.mem_cons_self b rest)
      · exact hacc a (List.mem_cons_of_mem b h1)
    · simp only [addItem, if_neg h] at ha
      rcases List.mem_cons.mp ha with h1 | h1
      · rw [h1]
        exact hacc b (List.mem_cons_self b rest)
      · exact ih (fun x hx => hacc x (List.mem_cons_of_mem b hx)) a h1

theorem foldl_addItem_pid_prop {Q : String → Prop} (items : List SaleProduct)
    (hits : ∀ it ∈ items, Q it.product_id) :
    ∀ acc, (∀ a ∈ acc, Q a.product_id) →
      ∀ a ∈ items.foldl addItem acc, Q a.product_id := by
  induction items with
  | nil => intro acc hacc; simpa using hacc
  | cons it rest ih =>
    intro acc hacc
    simp only [List.foldl_cons]
    exact ih (fun x hx => hits x (List.mem_cons_of_mem it hx)) _
      (addItem_pid_prop (hits it (List.mem_cons_self it rest)) hacc)

/-- Every aggregate row's product id satisfies any property that all sold
line items' product ids satisfy. -/
theorem product_sales_pid_prop {Q : String → Prop} (sales : List Sale)
    (h : ∀ s ∈ sales, ∀ it ∈ s.products, Q it.product_id) :
    ∀ a ∈ product_sales sales, Q a.product_id := by
  suffices haux : ∀ acc, (∀ a ∈ acc, Q a.product_id) →
      ∀ a ∈ sales.foldl (fun acc s => s.products.foldl addItem acc) acc,
        Q a.product_id by
    exact haux [] (by simp)
  induction sales with
  | nil => intro acc hacc; simpa using hacc
  | cons s rest ih =>
    intro acc hacc
    simp only [List.foldl_cons]
    exact ih (fun x hx it hit => h x (List.mem_cons_of_mem s hx) it hit) _
      (foldl_addItem_pid_prop s.products
        (fun it hit => h s (List.mem_cons_self s rest) it hit) acc hacc)

theorem addItem_ne_nil (acc : List ProdAgg) (it : SaleProduct) :
    addItem acc it ≠ [] := by
  cases acc with
  | nil => simp [addItem]
  | cons a rest =>
    by_cases h : a.product_id = it.product_id <;> simp [addItem, h]

theorem foldl_addItem_ne_nil (items : List SaleProduct) :
    ∀ acc : List ProdAgg, acc ≠ [] → items.foldl addItem acc ≠ [] := by
  induction items with
  | nil => intro acc hacc; simpa using hacc
  | cons it rest ih =>
    intro acc _
    simp only [List.foldl_cons]
    exact ih _ (addItem_ne_nil acc it)

theorem lookupD_bump (l : List (String × Rat)) (k : String) (v : Rat) (c : String) :
    lookupD (bump l k v) c = if c = k then lookupD l k + v else lookupD l c := by
  induction l with
  | nil =>
    by_cases h : c = k
    · subst h
      simp [bump, lookupD]
    · have h2 : ¬ k = c := fun hh => h hh.symm
      simp [bump, lookupD, h, h2]
  | cons e rest ih =>
    by_cases he : e.1 = k
    · by_cases hc : c = k
      · subst hc
        simp [bump, lookupD, he]
      · have hec : ¬ e.1 = c := fun hh => hc (hh.symm.trans he)
        have hkc : ¬ k = c := fun hh => hc hh.symm
        simp [bump, lookupD, he, hc, hec, hkc]
    · by_cases hec : e.1 = c
      · have hck : ¬ c = k := fun hh => he (hec.trans hh)
        simp [bump, lookupD, he, hec, hck]
      · simp [bump, lookupD, he, hec, ih]

theorem lookupD_category_sales_aux (catalog : List Product) (c : String)
    (aggs : List ProdAgg) :
    ∀ acc, lookupD (aggs.foldl
        (fun acc a =>
          match catalog.find? (fun p => p.id = a.product_id) with
          | some p => bump acc p.category a.revenue
          | none => acc) acc) c
      = lookupD acc c + sumRev (aggs.filter (catMatch catalog c)) := by
  induction aggs with
  | nil => intro acc; simp [sumRev]
  | cons a rest ih =>
    intro acc
    simp only [List.foldl_cons]
    cases hfind : catalog.find? (fun p => p.id = a.product_id) with
    | none =>
      have hm : catMatch catalog c a = false := by
        simp [catMatch, catOf, hfind]
      simp only [hfind, List.filter_cons, hm, if_neg]
      rw [ih]
      simp
    | some p =>
      simp only [hfind]
      rw [ih, lookupD_bump]
      by_cases hpc : c = p.category
      · have hm : catMatch catalog c a = true := by
          simp [catMatch, catOf, hfind, hpc]
        simp only [if_pos hpc, List.filter_cons, hm, if_pos, sumRev]
        rw [hpc]
        ring
      · have hm : catMatch catalog c a = false := by
          simp only [catMatch, catOf, hfind, Option.map_some, decide_eq_false_iff_not]
          intro hh
          exact hpc (Option.some.inj hh).symm
        simp [List.filter_cons, hm, hpc]

/-- The value `sales_by_category` assigns to category `c`: the revenues of
exactly those aggregate rows whose product currently resolves to `c`. -/
theorem lookupD_category_sales (catalog : List Product) (c : String)
    (aggs : List ProdAgg) :
    lookupD (category_sales catalog aggs) c
      = sumRev (aggs.filter (catMatch catalog c)) := by
  have h := lookupD_category_sales_aux catalog c aggs []
  simpa [category_sales, lookupD] using h

theorem category_sales_const_aux (catalog : List Product) (c : String) :
    ∀ aggs : List ProdAgg,
      (∀ a ∈ aggs, catOf catalog a.product_id = some c) →
      ∀ x : Rat, aggs.foldl
          (fun acc a =>
            match catalog.find? (fun p => p.id = a.product_id) with
            | some p => bump acc p.category a.revenue
            | none => acc) [(c, x)]
        = [(c, x + sumRev aggs)] := by
  intro aggs
  induction aggs with
  | nil => intro _ x; simp [sumRev]
  | cons a rest ih =>
    intro h x
    have ha := h a (List.mem_cons_self a rest)
    rcases Option.map_eq_some'.mp ha with ⟨p, hfind, hcat⟩
    simp only [List.foldl_cons, hfind, hcat, bump, if_pos]
    rw [ih (fun b hb => h b (List.mem_cons_of_mem a hb)) (x + a.revenue)]
    simp only [sumRev, List.cons.injEq, Prod.mk.injEq, true_and, and_true]
    ring

/-- When every sold product currently resolves to the single category `c`,
`sales_by_category` is exactly the one-entry dict for `c` with the total
revenue. -/
theorem category_sales_const (catalog : List Product) (c : String)
    (aggs : List ProdAgg)
    (h : ∀ a ∈ aggs, catOf catalog a.product_id = some c) (hne : aggs ≠ []) :
    category_sales catalog aggs = [(c, sumRev aggs)] := by
  cases aggs with
  | nil => exact absurd rfl hne
  | cons a rest =>
    have ha := h a (List.mem_cons_self a rest)
    rcases Option.map_eq_some'.mp ha with ⟨p, hfind, hcat⟩
    simp only [category_sales, List.foldl_cons, hfind, hcat, bump]
    rw [category_sales_const_aux catalog c rest
      (fun b hb => h b (List.mem_cons_of_mem a hb)) a.revenue]
    simp [sumRev]

/-! ## Stability of the top-products sort -/

/-- Restricting the stably sorted aggregate list to any one quantity value
returns exactly the corresponding slice of the unsorted list, in its original
(first-seen) order: the tie-break of the stable sort. -/
theorem filter_insertionSort_quantity (aggs : List ProdAgg) (q : Int) :
    (List.insertionSort topRel aggs).filter (fun a => decide (a.quantity = q))
      = aggs.filter (fun a => decide (a.quantity = q)) := by
  have hpair : (aggs.filter (fun a => decide (a.quantity = q))).Pairwise topRel := by
    apply List.pairwise_of_forall_mem_list
    intro a ha b hb
    have ha2 := (List.mem_filter.mp ha).2
    have hb2 := (List.mem_filter.mp hb).2
    simp only [decide_eq_true_eq] at ha2 hb2
    show b.quantity ≤ a.quantity
    rw [ha2, hb2]
  have hsub : List.Sublist (aggs.filter (fun a => decide (a.quantity = q)))
      (List.insertionSort topRel aggs) :=
    List.sublist_insertionSort hpair (List.filter_sublist aggs)
  have hsub2 := hsub.filter (fun a => decide (a.quantity = q))
  rw [List.filter_filter] at hsub2
  have hsub3 : List.Sublist (aggs.filter (fun a => decide (a.quantity = q)))
      ((List.insertionSort topRel aggs).filter (fun a => decide (a.quantity = q))) := by
    simpa using hsub2
  have hlen : ((List.insertionSort topRel aggs).filter
        (fun a => decide (a.quantity = q))).length
      = (aggs.filter (fun a => decide (a.quantity = q))).length :=
    ((List.perm_insertionSort topRel aggs).filter _).length_eq
  exact (hsub3.eq_of_length hlen.symm).symm

/-! ## Effect of the times_sold increments of create_sale -/

theorem incFirst_map_id (ps : List Product) (pid : String) (q : Int) :
    (incFirst ps pid q).map Product.id = ps.map Product.id := by
  induction ps with
  | nil => rfl
  | cons p rest ih =>
    by_cases h : p.id = pid <;> simp [incFirst, h, ih]

theorem incFirst_eq_map {ps : List Product} (h : (ps.map Product.id).Nodup)
    (pid : String) (q : Int) :
    incFirst ps pid q
      = ps.map (fun p =>
          if p.id = pid then { p with times_sold := p.times_sold + q } else p) := by
  induction ps with
  | nil => rfl
  | cons p rest ih =>
    simp only [List.map_cons, List.nodup_cons] at h
    by_cases hp : p.id = pid
    · have hrest : ∀ r ∈ rest, ¬ (r.id = pid) := by
        intro r hr he
        exact h.1 (by
          rw [← hp] at he
          exact he ▸ List.mem_map_of_mem Product.id hr)
      simp only [incFirst, if_pos hp, List.map_cons, if_pos hp, List.cons.injEq,
        true_and]
      rw [List.map_congr_left (fun r hr => if_neg (hrest r hr))]
      exact (List.map_id rest).symm
    · simp [incFirst, hp, ih h.2]

theorem foldl_incFirst_eq (items : List SaleProduct) :
    ∀ ps : List Product, (ps.map Product.id).Nodup →
      items.foldl (fun acc it => incFirst acc it.product_id it.quantity) ps
        = ps.map (fun p => { p with times_sold := p.times_sold + qtyFor items p.id }) := by
  induction items with
  | nil =>
    intro ps _
    simp only [List.foldl_nil, qtyFor]
    have : ∀ p ∈ ps, ({ p with times_sold := p.times_sold + 0 } : Product) = p := by
      intro p _
      simp
    rw [List.map_congr_left this]
    exact (List.map_id ps).symm
  | cons it rest ih =>
    intro ps h
    have h2 : ((incFirst ps it.product_id it.quantity).map Product.id).Nodup := by
      rw [incFirst_map_id]; exact h
    simp only [List.foldl_cons]
    rw [ih _ h2, incFirst_eq_map h, List.map_map]
    apply List.map_congr_left
    intro p _
    by_cases hpid : p.id = it.product_id
    · have hpid2 : it.product_id = p.id := hpid.symm
      simp only [Function.comp, if_pos hpid, qtyFor, if_pos hpid2,
        Product.mk.injEq, and_true, true_and]
      ring
    · have hpid2 : ¬ (it.product_id = p.id) := fun hh => hpid hh.symm
      simp [Function.comp, hpid, qtyFor, hpid2]

theorem foldl_applyOp_inc (items : List SaleProduct) :
    ∀ (ps : List Product) (ss : List Sale),
      items.foldl (fun st it => applyOp st (StoreOp.incTimesSold it.product_id it.quantity))
          (ps, ss)
        = (items.foldl (fun acc it => incFirst acc it.product_id it.quantity) ps, ss) := by
  induction items with
  | nil => intro ps ss; rfl
  | cons it rest ih =>
    intro ps ss
    simp only [List.foldl_cons, applyOp]
    exact ih _ ss

/-! ## Effect of the partial product update -/

theorem find?_updateFirst {products : List Product} {pid : String} {p : Product}
    (h : products.find? (fun r => r.id = pid) = some p) (u : ProductUpdate) :
    (updateFirst products pid u).find? (fun r => r.id = pid)
      = some (applyUpdate u p) := by
  induction products with
  | nil => simp at h
  | cons r rest ih =>
    by_cases hr : r.id = pid
    · rw [List.find?_cons_of_pos rest (by simpa using hr)] at h
      have hrp : r = p := Option.some.inj h
      subst hrp
      simp only [updateFirst, if_pos hr]
      exact List.find?_cons_of_pos rest (by simpa using (show (applyUpdate u r).id = pid from hr))
    · rw [List.find?_cons_of_neg rest (by simpa using hr)] at h
      simp only [updateFirst, if_neg hr]
      rw [List.find?_cons_of_neg (updateFirst rest pid u) (by simpa using hr)]
      exact ih h

theorem mem_updateFirst {products : List Product} {pid : String}
    {u : ProductUpdate} {q : Product} (hq : q ∈ products) (hne : q.id ≠ pid) :
    q ∈ updateFirst products pid u := by
  induction products with
  | nil => simp at hq
  | cons r rest ih =>
    rcases List.mem_cons.mp hq with h1 | h1
    · subst h1
      simp [updateFirst, hne]
    · by_cases hr : r.id = pid
      · simp only [updateFirst, if_pos hr]
        exact List.mem_cons_of_mem _ h1
      · simp only [updateFirst, if_neg hr]
        exact List.mem_cons_of_mem _ (ih h1)

/-! ## Shared concrete fixtures for witnesses -/

/-- Concrete stored user used by several witnesses. -/
def userW : StoredUser :=
  { id := "u1", email := "a@b.com", name := "Alice", role := "cashier",
    created_at := "2024-01-01T00:00:00+00:00", password := "hashed-pw" }

/-- Concrete pre-existing user holding the demo admin email, used to exhibit
the seed duplication. -/
def eveUser : StoredUser :=
  { id := "u-eve", email := "admin@pos.com", name := "Eve", role := "cashier",
    created_at := "2024-01-01T00:00:00+00:00", password := "h1" }

/-! ## Claim theorems -/

/-- C5: every failed login — email with no matching user, or matching user
with failing password verification — returns the very same error value
`incorrect_credentials_error` (kind 401, detail "Incorrect email or
password"), so the caller cannot tell which check failed. -/
theorem login_failure_indistinguishable
    (verify : String → String → Bool) (secret : String) (now : Int)
    (users : List StoredUser) (creds : UserLogin) :
    (users.find? (fun u => u.email = creds.email) = none →
      login verify secret now users creds
        = Except.error incorrect_credentials_error) ∧
    (∀ u, users.find? (fun u => u.email = creds.email) = some u →
      verify creds.password u.password = false →
      login verify secret now users creds
        = Except.error incorrect_credentials_error) := by
  constructor
  · intro h
    simp [login, h]
  · intro u hu hv
    simp [login, hu, hv]

/-- Witness for C5: both failure modes produce the error on a concrete
store. -/
theorem login_failure_indistinguishable_witness :
    ([userW].find? (fun u => u.email = "nobody@x.com") = none ∧
      login (fun _ _ => false) "s" 0 [userW] { email := "nobody@x.com", password := "pw" }
        = Except.error incorrect_credentials_error) ∧
    ([userW].find? (fun u => u.email = "a@b.com") = some userW ∧
      (fun _ _ => (false : Bool)) "pw" userW.password = false ∧
      login (fun _ _ => false) "s" 0 [userW] { email := "a@b.com", password := "pw" }
        = Except.error incorrect_credentials_error) :=
  ⟨⟨by decide,
    (login_failure_indistinguishable (fun _ _ => false) "s" 0 [userW]
      { email := "nobody@x.com", password := "pw" }).1 (by decide)⟩,
   ⟨by decide, rfl,
    (login_failure_indistinguishable (fun _ _ => false) "s" 0 [userW]
      { email := "a@b.com", password := "pw" }).2 userW (by decide) rfl⟩⟩

/-- C9: registering an email already present fails with the conflict error
(400, "Email already registered") and leaves the user store unchanged;
otherwise the new user document (with the hashed password) is appended and
the public view — which carries no password field — is returned. -/
theorem register_conflict_or_store
    (hashFn : String → String) (freshId now : String)
    (users : List StoredUser) (data : UserCreate) :
    ((∃ u ∈ users, u.email = data.email) →
      register hashFn freshId now users data
        = (Except.error email_registered_error, users)) ∧
    ((∀ u ∈ users, u.email ≠ data.email) →
      register hashFn freshId now users data
        = (Except.ok { id := freshId, email := data.email, name := data.name,
                       role := data.role, created_at := now },
           users ++ [{ id := freshId, email := data.email, name := data.name,
                       role := data.role, created_at := now,
                       password := hashFn data.password }])) := by
  constructor
  · rintro ⟨u, hu, he⟩
    have hsome : (users.find? (fun v => v.email = data.email)).isSome := by
      rw [List.find?_isSome]
      exact ⟨u, hu, by simpa using he⟩
    rcases Option.isSome_iff_exists.mp hsome with ⟨w, hw⟩
    simp [register, hw]
  · intro h
    have hnone : users.find? (fun v => v.email = data.email) = none := by
      rw [List.find?_eq_none]
      intro v hv
      simpa using h v hv
    simp [register, hnone, toView]

/-- Witness for C9: a duplicate registration is rejected with the store
unchanged, and a fresh registration appends the document. -/
theorem register_conflict_or_store_witness :
    ((∃ u ∈ [userW], u.email = "a@b.com") ∧
      register (fun s => s) "u2" "t2" [userW]
          { email := "a@b.com", password := "pw", name := "Bob", role := "cashier" }
        = (Except.error email_registered_error, [userW])) ∧
    ((∀ u ∈ [userW], u.email ≠ "new@x.com") ∧
      register (fun s => s) "u2" "t2" [userW]
          { email := "new@x.com", password := "pw", name := "Bob", role := "cashier" }
        = (Except.ok { id := "u2", email := "new@x.com", name := "Bob",
                       role := "cashier", created_at := "t2" },
           [userW] ++ [{ id := "u2", email := "new@x.com", name := "Bob",
                         role := "cashier", created_at := "t2",
                         password := "pw" }])) :=
  ⟨⟨⟨userW, by simp, by decide⟩,
    (register_conflict_or_store (fun s => s) "u2" "t2" [userW]
      { email := "a@b.com", password := "pw", name := "Bob", role := "cashier" }).1
      ⟨userW, by simp, by decide⟩⟩,
   ⟨by decide,
    (register_conflict_or_store (fun s => s) "u2" "t2" [userW]
      { email := "new@x.com", password := "pw", name := "Bob", role := "cashier" }).2
      (by decide)⟩⟩

/-- Counterexample for C6: with an empty product catalog and a user store
already holding a user whose email is "admin@pos.com", `seed_data` runs its
insert branch (its guard looks only at the products count) and creates a
second user record with that same email. -/
theorem seed_duplicates_existing_admin_email :
    eveUser.email = "admin@pos.com" ∧
    (((seed_data (fun s => s) (fun _ => "fresh-id") "2024-01-02T00:00:00+00:00"
        ([], [eveUser])).2.2.map StoredUser.email).count "admin@pos.com" = 2) := by
  exact ⟨rfl, by decide⟩

/-- C6 (amended): `register` does enforce email uniqueness at creation — it
preserves distinctness of the stored emails — but `seed_data` does not: when
the product catalog is empty it appends the demo admin and cashier users
unconditionally, without consulting the user store. -/
theorem register_unique_email_seed_unchecked :
    (∀ (hashFn : String → String) (freshId now : String)
        (users : List StoredUser) (data : UserCreate),
      (users.map StoredUser.email).Nodup →
      ((register hashFn freshId now users data).2.map StoredUser.email).Nodup) ∧
    (∀ (hashFn : String → String) (freshId : Nat → String) (now : String)
        (users : List StoredUser),
      (seed_data hashFn freshId now ([], users)).2.2
        = users ++
          [{ id := freshId 58, email := "admin@pos.com", name := "Admin User",
             role := "admin", created_at := now, password := hashFn "admin123" },
           { id := freshId 59, email := "cashier@pos.com", name := "Cashier User",
             role := "cashier", created_at := now, password := hashFn "cashier123" }]) := by
  constructor
  · intro hashFn freshId now users data hnodup
    cases hfind : users.find? (fun v => v.email = data.email) with
    | some w => simp [register, hfind, hnodup]
    | none =>
      have hnotin : ∀ v ∈ users, v.email ≠ data.email := by
        intro v hv
        have := List.find?_eq_none.mp hfind v hv
        simpa using this
      simp only [register, hfind, List.map_append, List.map_cons, List.map_nil]
      rw [List.nodup_append]
      refine ⟨hnodup, List.nodup_singleton _, ?_⟩
      intro e he hmem
      simp only [List.mem_singleton] at hmem
      rcases List.mem_map.mp he with ⟨v, hv, hve⟩
      exact hnotin v hv (by rw [hve, hmem])
  · intro hashFn freshId now users
    rfl

/-- Witness for C6 (amended): the register part applied on a concrete store
whose emails are distinct. -/
theorem register_unique_email_seed_unchecked_witness :
    ((([userW].map StoredUser.email).Nodup) ∧
      ((register (fun s => s) "u2" "t2" [userW]
          { email := "new@x.com", password := "pw", name := "Bob",
            role := "cashier" }).2.map StoredUser.email).Nodup) ∧
    (seed_data (fun s => s) (fun _ => "f") "t" ([], [userW])).2.2
      = [userW] ++
        [{ id := "f", email := "admin@pos.com", name := "Admin User",
           role := "admin", created_at := "t", password := "admin123" },
         { id := "f", email := "cashier@pos.com", name := "Cashier User",
           role := "cashier", created_at := "t", password := "cashier123" }] :=
  ⟨⟨by decide,
    register_unique_email_seed_unchecked.1 (fun s => s) "u2" "t2" [userW]
      { email := "new@x.com", password := "pw", name := "Bob", role := "cashier" }
      (by decide)⟩,
   register_unique_email_seed_unchecked.2 (fun s => s) (fun _ => "f") "t" [userW]⟩

/-- C4: a token issued for a user resolves through the auth gate back to
that user (whose id is the token's subject) whenever it is presented before
its expiry, which is set to issuance time plus 7 days; a token whose
signature does not match its payload, a structurally corrupt token, and a
token whose expiry is in the past all resolve to the same 401
`credentials_exception` — never to partial trust. -/
theorem token_roundtrip_and_rejection
    (secret : String) (users : List StoredUser) (uid : String) (u : StoredUser)
    (t0 t1 : Int)
    (hu : users.find? (fun x => x.id = uid) = some u)
    (ht : t1 < t0 + 60 * ACCESS_TOKEN_EXPIRE_MINUTES) :
    (∃ p sig, create_access_token secret uid t0 = Jwt.signed p sig ∧
      p.sub = some uid ∧ p.exp = t0 + 7 * 24 * 60 * 60) ∧
    get_current_user secret users (create_access_token secret uid t0) t1
      = Except.ok u ∧
    u.id = uid ∧
    (∀ p sig, sig ≠ hmacSign secret p →
      get_current_user secret users (Jwt.signed p sig) t1
        = Except.error credentials_exception) ∧
    get_current_user secret users Jwt.malformed t1
      = Except.error credentials_exception ∧
    (∀ p sig t2, p.exp < t2 →
      get_current_user secret users (Jwt.signed p sig) t2
        = Except.error credentials_exception) := by
  have hexp : ¬ (t0 + 60 * ACCESS_TOKEN_EXPIRE_MINUTES < t1) := by omega
  refine ⟨⟨_, _, rfl, rfl, by norm_num [ACCESS_TOKEN_EXPIRE_MINUTES]⟩, ?_, ?_, ?_, rfl, ?_⟩
  · simp [get_current_user, create_access_token, jwt_decode, hexp, hu]
  · have := List.find?_some hu
    simpa using this
  · intro p sig hsig
    simp [get_current_user, jwt_decode, hsig]
  · intro p sig t2 hpast
    by_cases hsig : sig = hmacSign secret p <;>
      simp [get_current_user, jwt_decode, hsig, hpast]

/-- Witness for C4: concrete round trip and rejections. -/
theorem token_roundtrip_and_rejection_witness :
    ([userW].find? (fun x => x.id = "u1") = some userW ∧
      (5 : Int) < 0 + 60 * ACCESS_TOKEN_EXPIRE_MINUTES) ∧
    get_current_user "k" [userW] (create_access_token "k" "u1" 0) 5
      = Except.ok userW ∧
    get_current_user "k" [userW] Jwt.malformed 5
      = Except.error credentials_exception :=
  ⟨⟨by decide, by decide⟩,
   (token_roundtrip_and_rejection "k" [userW] "u1" userW 0 5 (by decide)
      (by decide)).2.1,
   (token_roundtrip_and_rejection "k" [userW] "u1" userW 0 5 (by decide)
      (by decide)).2.2.2.2.1⟩

/-- C8: for an existing product, `update_product` overwrites exactly the
supplied (non-null) fields: the result is `applyUpdate u p`, whose id,
times_sold and created_at always equal the old ones, whose unsupplied
fields equal the old ones, and whose supplied sale_price is the new value;
products with a different id remain in the catalog untouched; for a nonexistent
id it fails 404 with the catalog unchanged. -/
theorem update_product_partial_semantics
    (products : List Product) (pid : String) (u : ProductUpdate) :
    (products.find? (fun p => p.id = pid) = none →
      update_product products pid u
        = (Except.error product_not_found_error, products)) ∧
    (∀ p, products.find? (fun p => p.id = pid) = some p →
      (update_product products pid u).1 = Except.ok (applyUpdate u p) ∧
      (update_product products pid u).2 = updateFirst products pid u ∧
      (applyUpdate u p).id = p.id ∧
      (applyUpdate u p).times_sold = p.times_sold ∧
      (applyUpdate u p).created_at = p.created_at ∧
      (u.name = none → (applyUpdate u p).name = p.name) ∧
      (u.category = none → (applyUpdate u p).category = p.category) ∧
      (u.cost = none → (applyUpdate u p).cost = p.cost) ∧
      (u.sale_price = none → (applyUpdate u p).sale_price = p.sale_price) ∧
      (u.employee_price = none → (applyUpdate u p).employee_price = p.employee_price) ∧
      (u.image_url = none → (applyUpdate u p).image_url = p.image_url) ∧
      (∀ v, u.sale_price = some v → (applyUpdate u p).sale_price = v) ∧
      (∀ q ∈ products, q.id ≠ pid → q ∈ (update_product products pid u).2)) := by
  constructor
  · intro h
    simp [update_product, h]
  · intro p hp
    have hfind2 := find?_updateFirst hp u
    refine ⟨?_, ?_, rfl, rfl, rfl, ?_, ?_, ?_, ?_, ?_, ?_, ?_, ?_⟩
    · simp [update_product, hp, hfind2]
    · simp [update_product, hp, hfind2]
    · intro h; simp [applyUpdate, h]
    · intro h; simp [applyUpdate, h]
    · intro h; simp [applyUpdate, h]
    · intro h; simp [applyUpdate, h]
    · intro h; simp [applyUpdate, h]
    · intro h; simp [applyUpdate, h]
    · intro v hv; simp [applyUpdate, hv]
    · intro q hq hne
      have : (update_product products pid u).2 = updateFirst products pid u := by
        simp [update_product, hp, hfind2]
      rw [this]
      exact mem_updateFirst hq hne

/-- Concrete catalog product used by witnesses. -/
def prodA : Product :=
  { id := "p1", name := "Cola", category := "drinks", cost := 1,
    sale_price := 2, employee_price := 1, image_url := "img",
    times_sold := 3, created_at := "t0" }

/-- Concrete partial update supplying only sale_price. -/
def updW : ProductUpdate :=
  { name := none, category := none, cost := none,
    sale_price := some 9, employee_price := none, image_url := none }

/-- Witness for C8: a one-product catalog where only the sale_price of the
product is updated. -/
theorem update_product_partial_semantics_witness :
    [prodA].find? (fun p => p.id = "p1") = some prodA ∧
      (update_product [prodA] "p1" updW).1 = Except.ok (applyUpdate updW prodA) ∧
      (applyUpdate updW prodA).name = prodA.name ∧
      (∀ v, updW.sale_price = some v → (applyUpdate updW prodA).sale_price = v) := by
  have h := (update_product_partial_semantics [prodA] "p1" updW).2 prodA (by decide)
  exact ⟨by decide, h.1, h.2.2.2.2.2.1 rfl, h.2.2.2.2.2.2.2.2.2.2.2.1⟩

/-- C7: `create_sale` first persists the sale (stamped with the caller's id
and name) and only then issues the per-line-item increments; running the
trace leaves every catalog product's times_sold raised by exactly the total
quantity its id was sold in the request (for distinct per-line-item
products: by that line item's quantity), and the sale appended to the
ledger. -/
theorem create_sale_persists_then_increments
    (user : StoredUser) (data : SaleCreate) (freshId now : String)
    (products : List Product) (sales : List Sale)
    (h : (products.map Product.id).Nodup) :
    (create_sale user data freshId now).2
      = StoreOp.insertSale (create_sale user data freshId now).1
          :: data.products.map (fun it => StoreOp.incTimesSold it.product_id it.quantity) ∧
    apply_ops (products, sales) (create_sale user data freshId now).2
      = (products.map (fun p =>
            { p with times_sold := p.times_sold + qtyFor data.products p.id }),
         sales ++ [(create_sale user data freshId now).1]) ∧
    (create_sale user data freshId now).1.cashier_id = user.id ∧
    (create_sale user data freshId now).1.cashier_name = user.name ∧
    (create_sale user data freshId now).1.products = data.products := by
  refine ⟨rfl, ?_, rfl, rfl, rfl⟩
  show apply_ops (products, sales)
      (StoreOp.insertSale (create_sale user data freshId now).1
        :: data.products.map (fun it => StoreOp.incTimesSold it.product_id it.quantity))
    = _
  simp only [apply_ops, List.foldl_cons, applyOp]
  rw [List.foldl_map]
  rw [foldl_applyOp_inc data.products products
    (sales ++ [(create_sale user data freshId now).1])]
  rw [foldl_incFirst_eq data.products products h]

/-- Concrete two-line-item sale request used by the C7 witness. -/
def saleReqW : SaleCreate :=
  { products :=
      [{ product_id := "p1", product_name := "Cola", quantity := 2,
         unit_price := 2, subtotal := 4 },
       { product_id := "p2", product_name := "Tea", quantity := 3,
         unit_price := 1, subtotal := 3 }],
    total := 7, customer_type := "customer", payment_method := "cash",
    amount_paid := 7, change_amount := 0 }

/-- Second concrete catalog product for the C7 witness. -/
def prodB : Product :=
  { id := "p2", name := "Tea", category := "drinks", cost := 1,
    sale_price := 1, employee_price := 1, image_url := "img",
    times_sold := 5, created_at := "t0" }

/-- Witness for C7: two line items of quantities 2 and 3 over a two-product
catalog with distinct ids. -/
theorem create_sale_persists_then_increments_witness :
    (([prodA, prodB].map Product.id).Nodup) ∧
    (create_sale userW saleReqW "s1" "2024-01-01T10:00:00+00:00").2
      = StoreOp.insertSale (create_sale userW saleReqW "s1" "2024-01-01T10:00:00+00:00").1
          :: saleReqW.products.map
              (fun it => StoreOp.incTimesSold it.product_id it.quantity) ∧
    apply_ops ([prodA, prodB], [])
        (create_sale userW saleReqW "s1" "2024-01-01T10:00:00+00:00").2
      = ([prodA, prodB].map (fun p =>
            { p with times_sold := p.times_sold + qtyFor saleReqW.products p.id }),
         [] ++ [(create_sale userW saleReqW "s1" "2024-01-01T10:00:00+00:00").1]) := by
  have h := create_sale_persists_then_increments userW saleReqW "s1"
    "2024-01-01T10:00:00+00:00" [prodA, prodB] [] (by decide)
  exact ⟨by decide, h.1, h.2.1⟩

/-- C10: `get_products` and `get_sales` return at most 1000 records and
`get_report_summary` aggregates at most 10000 in-range sales; each returns
exactly the first cap-many matching records, so matching records beyond the
cap are silently dropped from the lists and from the report's counts, with
no error value (the handlers' return types carry no truncation indicator). -/
theorem query_result_caps
    (catalog products : List Product) (sales : List Sale)
    (category search start_date end_date : Option String) :
    (get_products products category search).length ≤ 1000 ∧
    (get_sales sales start_date end_date).length ≤ 1000 ∧
    (get_report_summary catalog sales start_date end_date).total_transactions ≤ 10000 ∧
    (get_products products category search).length
      = min (products.filter
          (fun p => categoryClause category p && searchClause search p)).length 1000 ∧
    (get_sales sales start_date end_date).length
      = min (sales.filter (inRange start_date end_date)).length 1000 ∧
    (get_report_summary catalog sales start_date end_date).total_transactions
      = min (sales.filter (inRange start_date end_date)).length 10000 := by
  refine ⟨?_, ?_, ?_, ?_, ?_, ?_⟩
  · simp [get_products, List.length_take]
  · simp [get_sales, List.length_take]
  · simp [get_report_summary, inRangeSales, List.length_take]
  · simp [get_products, List.length_take, Nat.min_comm]
  · simp [get_sales, List.length_take, List.length_insertionSort, Nat.min_comm]
  · simp [get_report_summary, inRangeSales, List.length_take, Nat.min_comm]

/-- C2: `top_products` is the 10-element prefix of a list that is sorted by
quantity descending and whose restriction to each quantity value equals, in
order, the first-seen-ordered per-product aggregates of the in-range sales —
i.e. a stable descending sort truncated to 10; its length is
`min (number of distinct products) 10`, so with more than 10 distinct
products exactly 10 rows are kept. -/
theorem top_products_stable_sorted_truncated
    (catalog : List Product) (ledger : List Sale)
    (start_date end_date : Option String) :
    ∃ full : List ProdAgg,
      (get_report_summary catalog ledger start_date end_date).top_products
        = full.take 10 ∧
      List.Sorted topRel full ∧
      (∀ q : Int, full.filter (fun a => decide (a.quantity = q))
        = (product_sales (inRangeSales ledger start_date end_date)).filter
            (fun a => decide (a.quantity = q))) ∧
      (get_report_summary catalog ledger start_date end_date).top_products.length
        = min (product_sales (inRangeSales ledger start_date end_date)).length 10 := by
  refine ⟨List.insertionSort topRel
      (product_sales (inRangeSales ledger start_date end_date)),
    rfl, List.sorted_insertionSort topRel _,
    fun q => filter_insertionSort_quantity _ q, ?_⟩
  simp [get_report_summary, List.length_take, List.length_insertionSort, Nat.min_comm]

/-- C3: `sales_by_category` credits each aggregate row's revenue to the
category its product id currently resolves to in the catalog; a row whose
product id no longer resolves is counted under no category at all, and
`top_products` (built only from the line-item snapshots) is unaffected by
the catalog entirely. -/
theorem sales_by_category_live_lookup
    (catalog catalog2 : List Product) (ledger : List Sale)
    (start_date end_date : Option String) :
    (∀ c : String,
      lookupD (get_report_summary catalog ledger start_date end_date).sales_by_category c
        = sumRev ((product_sales (inRangeSales ledger start_date end_date)).filter
            (catMatch catalog c))) ∧
    (∀ a : ProdAgg, catOf catalog a.product_id = none →
      ∀ c : String, catMatch catalog c a = false) ∧
    (get_report_summary catalog ledger start_date end_date).top_products
      = (get_report_summary catalog2 ledger start_date end_date).top_products := by
  refine ⟨fun c => lookupD_category_sales catalog c _, ?_, rfl⟩
  intro a ha c
  simp [catMatch, ha]

/-- Aggregate row for a product id absent from the catalog, used by the C3
witness. -/
def ghostAgg : ProdAgg :=
  { product_id := "ghost", product_name := "Ghost", quantity := 1, revenue := 5 }

/-- Witness for C3: a product id with no catalog record matches no category,
and the category equation holds on a concrete report. -/
theorem sales_by_category_live_lookup_witness :
    (catOf [prodA] ghostAgg.product_id = none ∧
      catMatch [prodA] "drinks" ghostAgg = false) ∧
    lookupD (get_report_summary [prodA] [] none none).sales_by_category "drinks"
      = sumRev ((product_sales (inRangeSales [] none none)).filter
          (catMatch [prodA] "drinks")) :=
  ⟨⟨by decide,
    (sales_by_category_live_lookup [prodA] [] [] none none).2.1 ghostAgg
      (by decide) "drinks"⟩,
   (sales_by_category_live_lookup [prodA] [prodA] [] none none).1 "drinks"⟩

theorem foldl_addItem_ne_nil_start (items : List SaleProduct) (hit : items ≠ [])
    (acc : List ProdAgg) : items.foldl addItem acc ≠ [] := by
  cases items with
  | nil => exact absurd rfl hit
  | cons it rest =>
    simp only [List.foldl_cons]
    exact foldl_addItem_ne_nil rest _ (addItem_ne_nil acc it)

/-- C1: for a ledger of exactly two in-range sales — one totaling 10 (in
total field and in line-item subtotals) on day D1, one totaling 15 on a
later day D2, all line items referencing products currently in category
"drinks" — the report yields total_sales 25 (sum of the total fields),
2 transactions, daily_sales [(D1,10),(D2,15)] ascending by day key, and
sales_by_category assigning 25 to "drinks" alone. -/
theorem report_two_day_drinks_example
    (catalog : List Product) (s1 s2 : Sale) (start_date end_date : Option String)
    (h1 : inRange start_date end_date s1 = true)
    (h2 : inRange start_date end_date s2 = true)
    (ht1 : s1.total = 10) (ht2 : s2.total = 15)
    (hs1 : sumSub s1.products = 10) (hs2 : sumSub s2.products = 15)
    (hd : strLt (dayKey s1.date) (dayKey s2.date) = true)
    (hcat : ∀ it ∈ s1.products ++ s2.products,
      catOf catalog it.product_id = some "drinks") :
    (get_report_summary catalog [s1, s2] start_date end_date).total_sales = 25 ∧
    (get_report_summary catalog [s1, s2] start_date end_date).total_transactions = 2 ∧
    (get_report_summary catalog [s1, s2] start_date end_date).daily_sales
      = [(dayKey s1.date, 10), (dayKey s2.date, 15)] ∧
    (get_report_summary catalog [s1, s2] start_date end_date).sales_by_category
      = [("drinks", 25)] := by
  have hfilter : [s1, s2].filter (inRange start_date end_date) = [s1, s2] := by
    simp [List.filter_cons, h1, h2]
  have hsales : inRangeSales [s1, s2] start_date end_date = [s1, s2] := by
    unfold inRangeSales
    rw [hfilter]
    exact List.take_of_length_le (by simp)
  refine ⟨?_, ?_, ?_, ?_⟩
  · have hfield : (get_report_summary catalog [s1, s2] start_date end_date).total_sales
        = sumTotals (inRangeSales [s1, s2] start_date end_date) := rfl
    rw [hfield, hsales]
    simp only [sumTotals, ht1, ht2]
    norm_num
  · have hfield : (get_report_summary catalog [s1, s2] start_date end_date).total_transactions
        = (inRangeSales [s1, s2] start_date end_date).length := rfl
    rw [hfield, hsales]
    rfl
  · have hkne : ¬ (dayKey s1.date = dayKey s2.date) := strLt_ne hd
    have hdt : daily_totals [s1, s2]
        = [(dayKey s1.date, s1.total), (dayKey s2.date, s2.total)] := by
      simp [daily_totals, bump, hkne]
    have hsorted : List.Sorted dayRel
        [(dayKey s1.date, s1.total), (dayKey s2.date, s2.total)] := by
      rw [List.sorted_cons]
      refine ⟨?_, List.sorted_singleton _⟩
      intro b hb
      have hb2 : b = (dayKey s2.date, s2.total) := List.mem_singleton.mp hb
      subst hb2
      show strLe (dayKey s1.date) (dayKey s2.date) = true
      exact strLt_le hd
    have hfield : (get_report_summary catalog [s1, s2] start_date end_date).daily_sales
        = List.insertionSort dayRel
            (daily_totals (inRangeSales [s1, s2] start_date end_date)) := rfl
    rw [hfield, hsales, hdt, List.Sorted.insertionSort_eq hsorted, ht1, ht2]
  · have h1ne : s1.products ≠ [] := by
      intro hnil
      rw [hnil] at hs1
      norm_num [sumSub] at hs1
    have hpne : product_sales [s1, s2] ≠ [] := by
      show [s1, s2].foldl (fun acc s => s.products.foldl addItem acc) [] ≠ []
      simp only [List.foldl_cons, List.foldl_nil]
      exact foldl_addItem_ne_nil s2.products _
        (foldl_addItem_ne_nil_start s1.products h1ne [])
    have hallcat : ∀ a ∈ product_sales [s1, s2],
        catOf catalog a.product_id = some "drinks" := by
      apply @product_sales_pid_prop (fun pid => catOf catalog pid = some "drinks")
      intro s hs it hit
      rcases List.mem_cons.mp hs with hcase | hcase
      · exact hcat it (List.mem_append_left _ (hcase ▸ hit))
      · have hs2' : s = s2 := by simpa using hcase
        exact hcat it (List.mem_append_right _ (hs2' ▸ hit))
    have hfield : (get_report_summary catalog [s1, s2] start_date end_date).sales_by_category
        = category_sales catalog (product_sales (inRangeSales [s1, s2] start_date end_date)) := rfl
    rw [hfield, hsales, category_sales_const catalog "drinks" _ hallcat hpne,
      sumRev_product_sales]
    simp only [sumSubAll, hs1, hs2]
    norm_num

/-- Concrete one-item sale on day 2024-01-01 totaling 10, for the C1
witness. -/
def saleW1 : Sale :=
  { id := "s1",
    products := [{ product_id := "p1", product_name := "Cola", quantity := 5,
                   unit_price := 2, subtotal := 10 }],
    total := 10, customer_type := "customer", payment_method := "cash",
    amount_paid := 10, change_amount := 0, cashier_id := "u1",
    cashier_name := "Alice", date := "2024-01-01T10:00:00+00:00" }

/-- Concrete one-item sale on day 2024-01-02 totaling 15, for the C1
witness. -/
def saleW2 : Sale :=
  { id := "s2",
    products := [{ product_id := "p1", product_name := "Cola", quantity := 5,
                   unit_price := 3, subtotal := 15 }],
    total := 15, customer_type := "customer", payment_method := "cash",
    amount_paid := 15, change_amount := 0, cashier_id := "u1",
    cashier_name := "Alice", date := "2024-01-02T10:00:00+00:00" }

/-- Concrete catalog product in category "drinks" for the C1 witness. -/
def drinkProd : Product :=
  { id := "p1", name := "Cola", category := "drinks", cost := 1,
    sale_price := 2, employee_price := 1, image_url := "img",
    times_sold := 0, created_at := "t0" }

/-- Witness for C1: the concrete two-sale, one-product scenario. -/
theorem report_two_day_drinks_example_witness :
    (inRange none none saleW1 = true ∧ inRange none none saleW2 = true ∧
      saleW1.total = 10 ∧ saleW2.total = 15 ∧
      sumSub saleW1.products = 10 ∧ sumSub saleW2.products = 15 ∧
      strLt (dayKey saleW1.date) (dayKey saleW2.date) = true ∧
      (∀ it ∈ saleW1.products ++ saleW2.products,
        catOf [drinkProd] it.product_id = some "drinks")) ∧
    (get_report_summary [drinkProd] [saleW1, saleW2] none none).total_sales = 25 ∧
    (get_report_summary [drinkProd] [saleW1, saleW2] none none).daily_sales
      = [(dayKey saleW1.date, 10), (dayKey saleW2.date, 15)] ∧
    (get_report_summary [drinkProd] [saleW1, saleW2] none none).sales_by_category
      = [("drinks", 25)] := by
  have h := report_two_day_drinks_example [drinkProd] saleW1 saleW2 none none
    rfl rfl rfl rfl (by simp [saleW1, sumSub]) (by simp [saleW2, sumSub])
    (by decide) (by decide)
  exact ⟨⟨rfl, rfl, rfl, rfl, by simp [saleW1, sumSub], by simp [saleW2, sumSub],
    by decide, by decide⟩, h.1, h.2.2.1, h.2.2.2⟩

end POS
